import Mathlib

/-!
Shallow embedding of the settlement/ledger core of `app.py` (a classroom
world-trade game built on a web-form UI): the exchange-rate table with
override/restore, currency conversion, per-country multi-currency funds
and resource lists, the trade-form submit handler, and the append-only
transaction ledger.

Python dicts are modelled as insertion-ordered association lists with
unique keys; floats are modelled as exact rationals; the Python
exceptions that can escape the handler (TypeError from comparing `None`,
KeyError from `-=` on a missing key) are modelled as error values.
-/

/-- Lookup in a Python-dict-like association list (first matching key),
`d.get(k)` / `k in d`. -/
def dget {α : Type} : List (String × α) → String → Option α
  | [], _ => none
  | (k', v') :: rest, k => if k' = k then some v' else dget rest k

/-- Python dict assignment `d[k] = v`: update the existing key in place,
else append the new key at the end (insertion order preserved). -/
def dset {α : Type} : List (String × α) → String → α → List (String × α)
  | [], k, v => [(k, v)]
  | (k', v') :: rest, k, v =>
      if k' = k then (k', v) :: rest else (k', v') :: dset rest k v

/-- One country's account: held resource descriptors (`"자원"`) and the
multi-currency funds dict (`"자금"`), from the `st.session_state.countries`
entries of `app.py`. -/
structure Country where
  resources : List String
  funds : List (String × ℚ)
  deriving DecidableEq

/-- One row of the `st.session_state.transactions` ledger, columns
`시간, 파는 나라, 사는 나라, 거래 물품, 수량, 거래 금액, 통화`
(time, seller, buyer, item, quantity, price, currency). -/
structure TransactionRecord where
  time : String
  seller : String
  buyer : String
  item : String
  quantity : ℤ
  price : ℚ
  currency : String
  deriving DecidableEq

/-- The mutable session state of `app.py`: live rates, the deep-copied
original-rates snapshot, the `news_active` flag, the country registry,
and the transaction ledger. -/
structure GameState where
  rates : List (String × ℚ)
  originalRates : List (String × ℚ)
  newsActive : Bool
  countries : List (String × Country)
  transactions : List TransactionRecord
  deriving DecidableEq

/-- The ways the trade submit handler can fail: the explicit
`seller == buyer` error message, the explicit insufficient-funds error
message, and the two Python exceptions reachable in the handler
(`TypeError` from using a `None` conversion result, `KeyError` from
`buyer_funds['KRW'] -=` when the key is absent). -/
inductive TradeError where
  | sameParticipant
  | insufficientFunds
  | typeError
  | keyError
  deriving DecidableEq

/-- `convert_currency(amount, from_currency, to_currency, rates)` from
`app.py` lines 55-63: `None` if either code is missing, else
`amount * rates[from] / rates[to]` (pivot through KRW). -/
def convert_currency (amount : ℚ) (from_currency to_currency : String)
    (rates : List (String × ℚ)) : Option ℚ :=
  match dget rates from_currency, dget rates to_currency with
  | some rf, some rt => some (amount * rf / rt)
  | _, _ => none

/-- The fixed fallback rate table `base_rates` of `initialize_game`
(line 71), used when the rate fetch fails. -/
def base_rates : List (String × ℚ) :=
  [("KRW", 1), ("USD", 1400), ("JPY", 9), ("CNY", 195)]

/-- The rates dict assembled by `fetch_exchange_rates` (lines 40-47) on a
successful fetch: `KRW` is pinned to 1 first, then the parsed `USD`,
`JPY` (the quoted JPY(100) value divided by 100) and `CNY` quotes are
added when present in the response. -/
def fetch_rates (usd jpy cny : Option ℚ) : List (String × ℚ) :=
  ("KRW", 1) ::
    ((usd.map (fun v => ("USD", v))).toList ++
     (jpy.map (fun v => ("JPY", v / 100))).toList ++
     (cny.map (fun v => ("CNY", v))).toList)

/-- The fixed seed country registry of `initialize_game` (lines 84-89). -/
def initCountries : List (String × Country) :=
  [("한국 🇰🇷", ⟨["쌀 🍚", "전자제품 📱"], [("KRW", 50000)]⟩),
   ("미국 🇺🇸", ⟨["밀 🌾", "카카오 🍫"], [("USD", 30)]⟩),
   ("일본 🇯🇵", ⟨["자동차 🚗", "우유 🥛"], [("JPY", 5000)]⟩),
   ("중국 🇨🇳", ⟨["장난감 🧸", "설탕 🧂"], [("CNY", 250)]⟩)]

/-- `initialize_game` (lines 65-94): the session starts with the fetched
rates (or `base_rates` on fetch failure, modelled by `none`), the
original-rates snapshot equal to a copy of the live rates, the news flag
off, the seed countries and an empty ledger. -/
def initialize_game (fetched : Option (List (String × ℚ))) : GameState :=
  { rates := fetched.getD base_rates
    originalRates := fetched.getD base_rates
    newsActive := false
    countries := initCountries
    transactions := [] }

/-- The default-rates session (fetch failed / non-trading day). -/
def initGame : GameState := initialize_game none

/-- The tab-2 "긴급 뉴스" toggle-on path (lines 126-136): sets
`news_active = True` and writes the three override inputs into the live
rates (`rates['USD']`, `rates['JPY']`, `rates['CNY']`); the inputs are
plain number fields with no lower bound. -/
def newsToggleOn (s : GameState) (usd jpy cny : ℚ) : GameState :=
  { s with newsActive := true
           rates := dset (dset (dset s.rates "USD" usd) "JPY" jpy) "CNY" cny }

/-- The tab-2 toggle-off path (lines 137-141): if the news flag was on,
clear it and restore `rates` to a fresh copy of `original_rates`;
otherwise do nothing. -/
def newsToggleOff (s : GameState) : GameState :=
  if s.newsActive then
    { s with newsActive := false, rates := s.originalRates }
  else s

/-- One run of `newsToggleOn` from a `(usd, jpy, cny)` override triple. -/
def newsRun (t : GameState) (r : ℚ × ℚ × ℚ) : GameState :=
  newsToggleOn t r.1 r.2.1 r.2.2

/-- `buyer_total_krw` (line 198): the sum of
`convert_currency(amt, cur, 'KRW', rates)` over the buyer's funds dict;
`none` models the TypeError raised when a conversion yields `None`
(the fold is right-nested where Python sums left-to-right, which is
value-equal over exact rationals). -/
def totalKrw : List (String × ℚ) → List (String × ℚ) → Option ℚ
  | [], _ => some 0
  | p :: rest, rates =>
      match convert_currency p.2 p.1 "KRW" rates, totalKrw rest rates with
      | some v, some acc => some (v + acc)
      | _, _ => none

/-- The buyer-debit block of the submit handler (lines 206-218).
If the buyer holds the trade currency: debit the full price when the
balance suffices, else zero that balance and, only when a `'KRW'` key is
present, debit the KRW-converted shortfall from it (the conversion is
computed before the zeroing in the source; it reads only `rates`, so the
value is unchanged).  If the buyer does not hold the trade currency:
`buyer_funds['KRW'] -= price_in_krw`, which is a KeyError when the buyer
has no `'KRW'` key. -/
def debitBuyer (funds : List (String × ℚ)) (price priceInKrw : ℚ)
    (currency : String) (rates : List (String × ℚ)) :
    Except TradeError (List (String × ℚ)) :=
  match dget funds currency with
  | some bal =>
      if price ≤ bal then
        .ok (dset funds currency (bal - price))
      else
        match dget (dset funds currency 0) "KRW" with
        | some krw =>
            match convert_currency (price - bal) currency "KRW" rates with
            | some needed => .ok (dset (dset funds currency 0) "KRW" (krw - needed))
            | none => .error .typeError
        | none => .ok (dset funds currency 0)
  | none =>
      match dget funds "KRW" with
      | some krw => .ok (dset funds "KRW" (krw - priceInKrw))
      | none => .error .keyError

/-- The seller-credit block (lines 221-224): add the price to the
seller's balance in the trade currency, creating the key if absent. -/
def creditSeller (funds : List (String × ℚ)) (currency : String) (price : ℚ) :
    List (String × ℚ) :=
  match dget funds currency with
  | some bal => dset funds currency (bal + price)
  | none => dset funds currency price

/-- `new_item_str = f"{item} {quantity}개"` (line 227). -/
def newItemStr (item : String) (quantity : ℤ) : String :=
  item ++ " " ++ toString quantity ++ "개"

/-- The ledger row built at lines 231-239. -/
def mkRecord (time seller buyer item : String) (quantity : ℤ) (price : ℚ)
    (currency : String) : TransactionRecord :=
  ⟨time, seller, buyer, item, quantity, price, currency⟩

/-- The trade-form submit handler of tab 3 (lines 189-241), as a function
of the submitted fields (the wall-clock timestamp is passed in).  In
order: the `seller == buyer` check; the affordability check comparing the
buyer's total KRW-converted wealth against the KRW-converted price; the
buyer debit; the seller credit; the resource append; the ledger append. -/
def settle (s : GameState) (time seller buyer item : String) (quantity : ℤ)
    (price : ℚ) (currency : String) : Except TradeError GameState :=
  if seller = buyer then
    .error .sameParticipant
  else
    match dget s.countries buyer, dget s.countries seller with
    | some buyerC, some sellerC =>
        match totalKrw buyerC.funds s.rates,
              convert_currency price currency "KRW" s.rates with
        | some buyerTotalKrw, some priceInKrw =>
            if buyerTotalKrw < priceInKrw then
              .error .insufficientFunds
            else
              match debitBuyer buyerC.funds price priceInKrw currency s.rates with
              | .error e => .error e
              | .ok bFunds =>
                  .ok { s with
                        countries :=
                          dset (dset s.countries buyer
                                  { buyerC with
                                    funds := bFunds
                                    resources :=
                                      buyerC.resources ++ [newItemStr item quantity] })
                            seller
                            { sellerC with funds := creditSeller sellerC.funds currency price }
                        transactions :=
                          s.transactions ++ [mkRecord time seller buyer item quantity price currency] }
        | _, _ => .error .typeError
    | _, _ => .error .keyError

/-- One submitted trade form. -/
structure TradeReq where
  time : String
  seller : String
  buyer : String
  item : String
  quantity : ℤ
  price : ℚ
  currency : String
  deriving DecidableEq

/-- The handler as a state transformer: on any failure the session state
is left untouched (the error branches of the handler write nothing into
`st.session_state`). -/
def submitTrade (s : GameState) (r : TradeReq) : GameState :=
  match settle s r.time r.seller r.buyer r.item r.quantity r.price r.currency with
  | .ok s' => s'
  | .error _ => s

/-- A whole session of submitted trade forms, processed in order. -/
def processAll (s : GameState) (reqs : List TradeReq) : GameState :=
  reqs.foldl submitTrade s

/-- How many of the submitted trades settle successfully, threading the
state through in order. -/
def successCount : GameState → List TradeReq → ℕ
  | _, [] => 0
  | s, r :: rs =>
      match settle s r.time r.seller r.buyer r.item r.quantity r.price r.currency with
      | .ok s' => successCount s' rs + 1
      | .error _ => successCount s rs

/-- The fixed column order of the transactions table (lines 92-94),
exported as-is by `to_csv` (line 251):
time, seller, buyer, item, quantity, price, currency. -/
def transactionColumns : List String :=
  ["시간", "파는 나라", "사는 나라", "거래 물품", "수량", "거래 금액", "통화"]

/-- The funds dict of participant `n` after a settle result (`none` when
the settle failed or the participant is unknown). -/
def fundsAfter (r : Except TradeError GameState) (n : String) :
    Option (List (String × ℚ)) :=
  match r with
  | .ok s' => (dget s'.countries n).map Country.funds
  | .error _ => none

/-- Ledger row count after a settle result (`none` when it failed). -/
def ledgerSizeAfter (r : Except TradeError GameState) : Option ℕ :=
  match r with
  | .ok s' => some s'.transactions.length
  | .error _ => none

/-- Every balance of every participant is non-negative. -/
def balancesNonneg (s : GameState) : Prop :=
  ∀ pc ∈ s.countries, ∀ pf ∈ pc.2.funds, 0 ≤ pf.2

/-- The rate-table invariant asserted by the spec: the reference currency
KRW maps to exactly 1 and every other entry is strictly positive. -/
def ratesInvariant (d : List (String × ℚ)) : Prop :=
  dget d "KRW" = some 1 ∧ ∀ p ∈ d, p.1 ≠ "KRW" → 0 < p.2

instance (s : GameState) : Decidable (balancesNonneg s) := by
  unfold balancesNonneg; infer_instance

instance (d : List (String × ℚ)) : Decidable (ratesInvariant d) := by
  unfold ratesInvariant; infer_instance

/-! ### Dictionary lemmas -/

theorem dget_dset_self {α : Type} (d : List (String × α)) (k : String) (v : α) :
    dget (dset d k v) k = some v := by
  induction d with
  | nil => simp [dget, dset]
  | cons hd tl ih =>
      obtain ⟨k₀, v₀⟩ := hd
      by_cases h0 : k₀ = k
      · simp [dset, dget, h0]
      · simp [dset, dget, h0, ih]

theorem dget_dset_ne {α : Type} (d : List (String × α)) (k k' : String) (v : α)
    (h : k ≠ k') : dget (dset d k v) k' = dget d k' := by
  induction d with
  | nil => simp [dget, dset, h]
  | cons hd tl ih =>
      obtain ⟨k₀, v₀⟩ := hd
      by_cases h0 : k₀ = k
      · simp [dset, dget, h0, h]
      · simp [dset, dget, h0, ih]

theorem mem_dset {α : Type} {d : List (String × α)} {k : String} {v : α}
    {p : String × α} (hp : p ∈ dset d k v) : p.2 = v ∨ p ∈ d := by
  induction d with
  | nil =>
      simp [dset] at hp
      exact Or.inl (by rw [hp])
  | cons hd tl ih =>
      obtain ⟨k₀, v₀⟩ := hd
      by_cases h0 : k₀ = k
      · simp [dset, h0] at hp
        rcases hp with rfl | h
        · exact Or.inl rfl
        · exact Or.inr (List.mem_cons_of_mem _ h)
      · simp [dset, h0] at hp
        rcases hp with rfl | h
        · exact Or.inr (List.mem_cons_self _ _)
        · rcases ih h with h1 | h2
          · exact Or.inl h1
          · exact Or.inr (List.mem_cons_of_mem _ h2)

theorem dget_mem {α : Type} {d : List (String × α)} {k : String} {v : α}
    (h : dget d k = some v) : (k, v) ∈ d := by
  induction d with
  | nil => simp [dget] at h
  | cons hd tl ih =>
      obtain ⟨k₀, v₀⟩ := hd
      by_cases h0 : k₀ = k
      · simp [dget, h0] at h
        subst h0; subst h
        exact List.mem_cons_self _ _
      · simp [dget, h0] at h
        exact List.mem_cons_of_mem _ (ih h)

/-! ### Anatomy of a successful settle -/

theorem settle_ok_parts (s : GameState) (t sl byr it : String) (q : ℤ) (p : ℚ)
    (c : String) (s' : GameState)
    (h : settle s t sl byr it q p c = .ok s') :
    sl ≠ byr ∧
    ∃ bC sC total pK bF,
      dget s.countries byr = some bC ∧
      dget s.countries sl = some sC ∧
      totalKrw bC.funds s.rates = some total ∧
      convert_currency p c "KRW" s.rates = some pK ∧
      ¬ total < pK ∧
      debitBuyer bC.funds p pK c s.rates = .ok bF ∧
      s' = { s with
             countries :=
               dset (dset s.countries byr
                       { bC with funds := bF
                                 resources := bC.resources ++ [newItemStr it q] })
                 sl { sC with funds := creditSeller sC.funds c p }
             transactions := s.transactions ++ [mkRecord t sl byr it q p c] } := by
  unfold settle at h
  split at h
  · simp at h
  next hne =>
    split at h
    next bC sC hb hs =>
      split at h
      next total pK htot hpk =>
        split at h
        · simp at h
        next hlt =>
          split at h
          next e hd => simp at h
          next bF hd =>
            injection h with h2
            exact ⟨hne, bC, sC, total, pK, bF, hb, hs, htot, hpk, hlt, hd, h2.symm⟩
      next => simp at h
    next => simp at h

theorem settle_ok_transactions (s : GameState) (t sl byr it : String) (q : ℤ)
    (p : ℚ) (c : String) (s' : GameState)
    (h : settle s t sl byr it q p c = .ok s') :
    s'.transactions = s.transactions ++ [mkRecord t sl byr it q p c] := by
  obtain ⟨-, bC, sC, total, pK, bF, -, -, -, -, -, -, hs'⟩ :=
    settle_ok_parts s t sl byr it q p c s' h
  rw [hs']

theorem debitBuyer_error_kinds (funds : List (String × ℚ)) (p pK : ℚ)
    (c : String) (rates : List (String × ℚ)) (e : TradeError)
    (h : debitBuyer funds p pK c rates = .error e) :
    e = .typeError ∨ e = .keyError := by
  unfold debitBuyer at h
  split at h
  next bal hbal =>
    split at h
    · simp at h
    · split at h
      next krw hk =>
        split at h
        · simp at h
        · injection h with h2
          exact Or.inl h2.symm
      next => simp at h
  next hbal =>
    split at h
    next krw hk => simp at h
    next =>
      injection h with h2
      exact Or.inr h2.symm

theorem debitBuyer_ok_shapes (funds rates : List (String × ℚ)) (p pK : ℚ)
    (c : String) (bF : List (String × ℚ)) (rc rk : ℚ)
    (hc : dget rates c = some rc) (hk : dget rates "KRW" = some rk)
    (h : debitBuyer funds p pK c rates = .ok bF) :
    (∃ bal, dget funds c = some bal ∧ p ≤ bal ∧ bF = dset funds c (bal - p)) ∨
    (∃ bal krw, dget funds c = some bal ∧ bal < p ∧
        dget (dset funds c 0) "KRW" = some krw ∧
        bF = dset (dset funds c 0) "KRW" (krw - (p - bal) * rc / rk)) ∨
    (∃ bal, dget funds c = some bal ∧ bal < p ∧
        dget (dset funds c 0) "KRW" = none ∧ bF = dset funds c 0) ∨
    (∃ krw, dget funds c = none ∧ dget funds "KRW" = some krw ∧
        bF = dset funds "KRW" (krw - pK)) := by
  unfold debitBuyer at h
  split at h
  next bal hbal =>
    split at h
    next hle =>
      injection h with h2
      exact Or.inl ⟨bal, hbal, hle, h2.symm⟩
    next hgt =>
      simp only [convert_currency, hc, hk] at h
      split at h
      next krw hkrw =>
        injection h with h2
        exact Or.inr (Or.inl ⟨bal, krw, hbal, not_le.mp hgt, hkrw, h2.symm⟩)
      next hkrw =>
        injection h with h2
        exact Or.inr (Or.inr (Or.inl ⟨bal, hbal, not_le.mp hgt, hkrw, h2.symm⟩))
  next hbal =>
    split at h
    next krw hkrw =>
      injection h with h2
      exact Or.inr (Or.inr (Or.inr ⟨krw, hbal, hkrw, h2.symm⟩))
    next => simp at h

theorem creditSeller_dget (f : List (String × ℚ)) (c : String) (p : ℚ) :
    dget (creditSeller f c p) c = some ((dget f c).getD 0 + p) := by
  unfold creditSeller
  cases hf : dget f c with
  | some bal => simp [dget_dset_self]
  | none => simp [dget_dset_self]

theorem creditSeller_nonneg (f : List (String × ℚ)) (c : String) (p : ℚ)
    (hf : ∀ pf ∈ f, 0 ≤ pf.2) (hp : 0 ≤ p) :
    ∀ pf ∈ creditSeller f c p, 0 ≤ pf.2 := by
  intro pf hpf
  unfold creditSeller at hpf
  cases hfc : dget f c with
  | some bal =>
      rw [hfc] at hpf
      rcases mem_dset hpf with h1 | h2
      · rw [h1]
        exact add_nonneg (hf _ (dget_mem hfc)) hp
      · exact hf _ h2
  | none =>
      rw [hfc] at hpf
      rcases mem_dset hpf with h1 | h2
      · rw [h1]; exact hp
      · exact hf _ h2

theorem dset_nonneg (f : List (String × ℚ)) (k : String) (v : ℚ)
    (hf : ∀ pf ∈ f, 0 ≤ pf.2) (hv : 0 ≤ v) :
    ∀ pf ∈ dset f k v, 0 ≤ pf.2 := by
  intro pf hpf
  rcases mem_dset hpf with h1 | h2
  · rw [h1]; exact hv
  · exact hf _ h2

/-! ### Claim theorems -/

/-- Claim C6 (confirmed): after any positive number of override runs the
toggle-off restore makes the live rate mapping equal the original
snapshot (which the overrides never touched), and the toggle-off restore
is idempotent: running it again with no intervening override changes
nothing. -/
theorem C6_override_restore :
    (∀ (s : GameState) (u j c : ℚ) (runs : List (ℚ × ℚ × ℚ)),
        (newsToggleOff (runs.foldl newsRun (newsToggleOn s u j c))).rates =
          s.originalRates ∧
        (newsToggleOff (runs.foldl newsRun (newsToggleOn s u j c))).originalRates =
          s.originalRates) ∧
    (∀ s : GameState, newsToggleOff (newsToggleOff s) = newsToggleOff s) := by
  have key : ∀ (runs : List (ℚ × ℚ × ℚ)) (t : GameState), t.newsActive = true →
      (runs.foldl newsRun t).newsActive = true ∧
      (runs.foldl newsRun t).originalRates = t.originalRates := by
    intro runs
    induction runs with
    | nil => intro t ht; exact ⟨ht, rfl⟩
    | cons r rs ih =>
        intro t ht
        have h := ih (newsRun t r) (by simp [newsRun, newsToggleOn])
        simpa [newsRun, newsToggleOn] using h
  constructor
  · intro s u j c runs
    obtain ⟨h1, h2⟩ := key runs (newsToggleOn s u j c) (by simp [newsToggleOn])
    have horig : (newsToggleOn s u j c).originalRates = s.originalRates := rfl
    rw [horig] at h2
    constructor
    · simp [newsToggleOff, h1, h2]
    · simp [newsToggleOff, h1, h2]
  · intro s
    by_cases h : s.newsActive
    · simp [newsToggleOff, h]
    · simp [newsToggleOff, h]

/-- Claim C8 (confirmed): converting an amount from `X` to `Y` and back
through the same live table returns the amount exactly (over the exact
rational model of the float arithmetic), whenever both currencies are in
the table with nonzero rates. -/
theorem C8_convert_roundtrip (a rX rY : ℚ) (X Y : String)
    (rates : List (String × ℚ))
    (hX : dget rates X = some rX) (hY : dget rates Y = some rY)
    (hx : rX ≠ 0) (hy : rY ≠ 0) :
    (convert_currency a X Y rates).bind
      (fun b => convert_currency b Y X rates) = some a := by
  have key : a * rX / rY * rY / rX = a := by
    field_simp
  simp only [convert_currency, hX, hY]
  show some (a * rX / rY * rY / rX) = some a
  rw [key]

/-- Witness for C8 at the seed table: 7 USD to JPY and back is 7 USD. -/
theorem C8_convert_roundtrip_witness :
    (convert_currency 7 "USD" "JPY" base_rates).bind
      (fun b => convert_currency b "JPY" "USD" base_rates) = some 7 :=
  C8_convert_roundtrip 7 1400 9 "USD" "JPY" base_rates (by decide) (by decide)
    (by decide) (by decide)

/-- Claim C2 (corrected): the claimed `InvalidAmount` precondition does
not exist in the handler.  A programmatically submitted negative price
passes every check the handler performs and settles successfully,
appending a ledger row, where the claim says it must fail with
`InvalidAmount` and leave the ledger unchanged. -/
theorem C2_counterexample :
    ledgerSizeAfter
      (settle initGame "10:00:00" "미국 🇺🇸" "한국 🇰🇷" "밀 🌾" 1 (-1) "KRW") =
      some 1 := by
  norm_num +decide [settle, initGame, initialize_game, initCountries, base_rates,
    totalKrw, convert_currency, debitBuyer, creditSeller, dget, dset,
    ledgerSizeAfter, Option.getD]

/-- Claim C2 (amended): the handler checks only `seller != buyer`, which
fails with the same-participant error and leaves the session state
unchanged; the `price >= 0`, `quantity >= 1` and known-currency
conditions are enforced by the input widgets, not by the handler, and no
`InvalidAmount` or `UnknownCurrency` failure kind exists. -/
theorem C2_same_participant_only (s : GameState) (t sl it : String) (q : ℤ)
    (p : ℚ) (c : String) :
    settle s t sl sl it q p c = .error .sameParticipant ∧
    submitTrade s ⟨t, sl, sl, it, q, p, c⟩ = s := by
  constructor
  · simp [settle]
  · simp [submitTrade, settle]

/-- Claim C7 (corrected): the override inputs are unbounded, so an
override can set a non-reference live rate to a non-positive value,
breaking the strict-positivity half of the claimed invariant on a state
that satisfied it. -/
theorem C7_counterexample :
    ratesInvariant initGame.rates ∧
    ¬ ratesInvariant (newsToggleOn initGame 0 9 195).rates := by
  decide

/-- Claim C7 (amended): the reference-currency half of the invariant
does hold: KRW maps to exactly 1 and is never removed, across the
override path (which writes only USD/JPY/CNY), the restore path, the
fetched table and the fallback table; and initialization snapshots the
original rates equal to the live rates. -/
theorem C7_reference_currency (s : GameState) (u j c : ℚ)
    (h1 : dget s.rates "KRW" = some 1)
    (h2 : dget s.originalRates "KRW" = some 1) :
    dget (newsToggleOn s u j c).rates "KRW" = some 1 ∧
    (newsToggleOn s u j c).originalRates = s.originalRates ∧
    dget (newsToggleOff s).rates "KRW" = some 1 ∧
    (∀ usd jpy cny : Option ℚ, dget (fetch_rates usd jpy cny) "KRW" = some 1) ∧
    dget base_rates "KRW" = some 1 ∧
    (∀ f : Option (List (String × ℚ)),
        dget (initialize_game f).originalRates "KRW" =
          dget (initialize_game f).rates "KRW") := by
  refine ⟨?_, rfl, ?_, ?_, by decide, fun f => rfl⟩
  · show dget (dset (dset (dset s.rates "USD" u) "JPY" j) "CNY" c) "KRW" = some 1
    rw [dget_dset_ne _ _ _ _ (by decide), dget_dset_ne _ _ _ _ (by decide),
        dget_dset_ne _ _ _ _ (by decide), h1]
  · unfold newsToggleOff
    by_cases hn : s.newsActive
    · simp [hn, h2]
    · simp [hn, h1]
  · intro usd jpy cny
    simp [fetch_rates, dget]

/-- Witness for the amended C7 at the default session and a concrete
override triple. -/
theorem C7_reference_currency_witness :
    dget (newsToggleOn initGame 1500 10 200).rates "KRW" = some 1 ∧
    (newsToggleOn initGame 1500 10 200).originalRates = initGame.originalRates ∧
    dget (newsToggleOff initGame).rates "KRW" = some 1 ∧
    (∀ usd jpy cny : Option ℚ, dget (fetch_rates usd jpy cny) "KRW" = some 1) ∧
    dget base_rates "KRW" = some 1 ∧
    (∀ f : Option (List (String × ℚ)),
        dget (initialize_game f).originalRates "KRW" =
          dget (initialize_game f).rates "KRW") :=
  C7_reference_currency initGame 1500 10 200 (by decide) (by decide)

/-- A session state in which the buyer (미국) holds some of the trade
currency plus another non-reference currency but no KRW — as arises after
미국 sells goods priced in JPY — used to exercise the shortfall branch. -/
def c1State : GameState :=
  { rates := base_rates
    originalRates := base_rates
    newsActive := false
    countries :=
      [("한국 🇰🇷", ⟨["쌀 🍚", "전자제품 📱"], [("KRW", 50000)]⟩),
       ("미국 🇺🇸", ⟨["밀 🌾", "카카오 🍫"], [("USD", 30), ("JPY", 1000)]⟩),
       ("일본 🇯🇵", ⟨["자동차 🚗", "우유 🥛"], [("JPY", 4000)]⟩),
       ("중국 🇨🇳", ⟨["장난감 🧸", "설탕 🧂"], [("CNY", 250)]⟩)]
    transactions := [] }

/-- Claim C1 (corrected): the shortfall debit does not create a
reference-currency entry.  미국 holds 30 USD and 1000 JPY (total wealth
51000 KRW), buys milk for 2000 JPY (18000 KRW, affordable): the JPY
balance is zeroed, but because 미국 has no KRW key the 9000-KRW shortfall
is silently skipped — the resulting funds have no KRW entry at all, where
the claim requires a KRW entry of -9000 to be created. -/
theorem C1_counterexample :
    fundsAfter (settle c1State "10:30:00" "일본 🇯🇵" "미국 🇺🇸" "우유 🥛" 1 2000 "JPY")
        "미국 🇺🇸" = some [("USD", 30), ("JPY", 0)] := by
  norm_num +decide [settle, c1State, base_rates, totalKrw, convert_currency,
    debitBuyer, creditSeller, dget, dset, fundsAfter]

/-- Claim C1 (amended): for a settle that passes the affordability check,
the buyer debit is exactly one of: (1) trade-currency balance covers the
price — debit the price there; (2) balance insufficient and a KRW key
exists — zero the balance and debit the converted shortfall from KRW;
(3) balance insufficient and no KRW key — zero the balance and skip the
shortfall debit entirely (no KRW entry is created); (4) no trade-currency
balance and a KRW key exists — debit the full converted price from KRW.
(The remaining configuration, no trade-currency balance and no KRW key,
makes the settle fail with a KeyError rather than create the entry.) -/
theorem C1_debit_cases (s : GameState) (t sl byr it : String) (q : ℤ) (p : ℚ)
    (c : String) (s' : GameState) (bC : Country) (rc rk : ℚ)
    (hb : dget s.countries byr = some bC)
    (hc : dget s.rates c = some rc) (hk : dget s.rates "KRW" = some rk)
    (h : settle s t sl byr it q p c = .ok s') :
    ∃ f', (dget s'.countries byr).map Country.funds = some f' ∧
      ((∃ bal, dget bC.funds c = some bal ∧ p ≤ bal ∧
          f' = dset bC.funds c (bal - p)) ∨
       (∃ bal krw, dget bC.funds c = some bal ∧ bal < p ∧
          dget (dset bC.funds c 0) "KRW" = some krw ∧
          f' = dset (dset bC.funds c 0) "KRW" (krw - (p - bal) * rc / rk)) ∨
       (∃ bal, dget bC.funds c = some bal ∧ bal < p ∧
          dget (dset bC.funds c 0) "KRW" = none ∧ f' = dset bC.funds c 0) ∨
       (∃ krw, dget bC.funds c = none ∧ dget bC.funds "KRW" = some krw ∧
          f' = dset bC.funds "KRW" (krw - p * rc / rk))) := by
  obtain ⟨hne, bC', sC, total, pK, bF, hb', hs2, htot, hpk, hlt, hd, hs'⟩ :=
    settle_ok_parts s t sl byr it q p c s' h
  rw [hb] at hb'
  injection hb' with e1
  subst e1
  have hpk' : pK = p * rc / rk := by
    simp only [convert_currency, hc, hk] at hpk
    injection hpk with e2
    exact e2.symm
  subst hs'
  refine ⟨bF, ?_, ?_⟩
  · dsimp only
    rw [dget_dset_ne _ _ _ _ hne, dget_dset_self]
    rfl
  · have hshapes := debitBuyer_ok_shapes bC.funds s.rates p pK c bF rc rk hc hk hd
    rw [hpk'] at hshapes
    exact hshapes

/-- The session state produced from the default session by the trade
"미국 sells 밀 to 한국 for 1000 KRW" (used as a concrete successful
settle by several witnesses). -/
def okState1 : GameState :=
  { rates := base_rates
    originalRates := base_rates
    newsActive := false
    countries :=
      [("한국 🇰🇷", ⟨["쌀 🍚", "전자제품 📱", newItemStr "밀 🌾" 1], [("KRW", 49000)]⟩),
       ("미국 🇺🇸", ⟨["밀 🌾", "카카오 🍫"], [("USD", 30), ("KRW", 1000)]⟩),
       ("일본 🇯🇵", ⟨["자동차 🚗", "우유 🥛"], [("JPY", 5000)]⟩),
       ("중국 🇨🇳", ⟨["장난감 🧸", "설탕 🧂"], [("CNY", 250)]⟩)]
    transactions := [mkRecord "09:00:00" "미국 🇺🇸" "한국 🇰🇷" "밀 🌾" 1 1000 "KRW"] }

theorem settle_okState1 :
    settle initGame "09:00:00" "미국 🇺🇸" "한국 🇰🇷" "밀 🌾" 1 1000 "KRW" =
      .ok okState1 := by
  norm_num +decide [settle, okState1, initGame, initialize_game, initCountries,
    base_rates, totalKrw, convert_currency, debitBuyer, creditSeller, dget,
    dset, Option.getD]

/-- Witness for the amended C1 at a concrete successful settle (the
buyer 한국 pays 1000 KRW out of a 50000 KRW balance, case 1). -/
theorem C1_debit_cases_witness :
    ∃ f', (dget okState1.countries "한국 🇰🇷").map Country.funds = some f' ∧
      ((∃ bal, dget [("KRW", (50000 : ℚ))] "KRW" = some bal ∧ (1000 : ℚ) ≤ bal ∧
          f' = dset [("KRW", (50000 : ℚ))] "KRW" (bal - 1000)) ∨
       (∃ bal krw, dget [("KRW", (50000 : ℚ))] "KRW" = some bal ∧ bal < 1000 ∧
          dget (dset [("KRW", (50000 : ℚ))] "KRW" 0) "KRW" = some krw ∧
          f' = dset (dset [("KRW", (50000 : ℚ))] "KRW" 0) "KRW"
                 (krw - (1000 - bal) * 1 / 1)) ∨
       (∃ bal, dget [("KRW", (50000 : ℚ))] "KRW" = some bal ∧ bal < 1000 ∧
          dget (dset [("KRW", (50000 : ℚ))] "KRW" 0) "KRW" = none ∧
          f' = dset [("KRW", (50000 : ℚ))] "KRW" 0) ∨
       (∃ krw, dget [("KRW", (50000 : ℚ))] "KRW" = none ∧
          dget [("KRW", (50000 : ℚ))] "KRW" = some krw ∧
          f' = dset [("KRW", (50000 : ℚ))] "KRW" (krw - 1000 * 1 / 1))) :=
  C1_debit_cases initGame "09:00:00" "미국 🇺🇸" "한국 🇰🇷" "밀 🌾" 1 1000 "KRW"
    okState1 ⟨["쌀 🍚", "전자제품 📱"], [("KRW", 50000)]⟩ 1 1
    (by decide) (by decide) (by decide) settle_okState1

/-- A session state where the buyer (미국) holds USD plus a small KRW
balance — as arises after selling goods priced in KRW — so that a
KRW-fallback debit overshoots the KRW balance. -/
def c3State : GameState :=
  { rates := base_rates
    originalRates := base_rates
    newsActive := false
    countries :=
      [("한국 🇰🇷", ⟨["쌀 🍚", "전자제품 📱"], [("KRW", 50000)]⟩),
       ("미국 🇺🇸", ⟨["밀 🌾", "카카오 🍫"], [("USD", 100), ("KRW", 10)]⟩),
       ("일본 🇯🇵", ⟨["자동차 🚗", "우유 🥛"], [("JPY", 5000)]⟩),
       ("중국 🇨🇳", ⟨["장난감 🧸", "설탕 🧂"], [("CNY", 250)]⟩)]
    transactions := [] }

/-- Claim C3 (corrected): a settle can drive a balance negative.  From a
state with all balances non-negative, 미국 (100 USD + 10 KRW, total
wealth 140010 KRW) buys milk for 100 JPY (900 KRW): 미국 holds no JPY, so
the whole converted price is debited from the 10-KRW balance, leaving
KRW = -890 < 0 after a successful settle. -/
theorem C3_counterexample :
    balancesNonneg c3State ∧
    fundsAfter (settle c3State "11:00:00" "일본 🇯🇵" "미국 🇺🇸" "우유 🥛" 1 100 "JPY")
        "미국 🇺🇸" = some [("USD", 100), ("KRW", -890)] := by
  constructor
  · decide
  · norm_num +decide [settle, c3State, base_rates, totalKrw, convert_currency,
      debitBuyer, creditSeller, dget, dset, fundsAfter]

/-- Claim C3 (amended): non-negativity of all balances is preserved by a
successful settle whenever the price is non-negative and the buyer's
balance in the trade currency covers the price (the direct-debit branch);
the KRW-fallback branches can overdraw (see the counterexample). -/
theorem C3_nonneg_preserved (s : GameState) (t sl byr it : String) (q : ℤ)
    (p : ℚ) (c : String) (s' : GameState) (bC : Country) (bal : ℚ)
    (hnn : balancesNonneg s) (hp : 0 ≤ p)
    (hb : dget s.countries byr = some bC)
    (hbal : dget bC.funds c = some bal) (hle : p ≤ bal)
    (h : settle s t sl byr it q p c = .ok s') :
    balancesNonneg s' := by
  obtain ⟨hne, bC', sC, total, pK, bF, hb', hs2, htot, hpk, hlt, hd, hs'⟩ :=
    settle_ok_parts s t sl byr it q p c s' h
  rw [hb] at hb'
  injection hb' with e1
  subst e1
  have hbF : bF = dset bC.funds c (bal - p) := by
    have hdb : debitBuyer bC.funds p pK c s.rates =
        .ok (dset bC.funds c (bal - p)) := by
      unfold debitBuyer
      rw [hbal]
      simp [hle]
    rw [hdb] at hd
    injection hd with e2
    exact e2.symm
  subst hs'
  intro pc hpc pf hpf
  have hpc' : pc ∈ dset (dset s.countries byr
      { bC with funds := bF
                resources := bC.resources ++ [newItemStr it q] })
      sl { sC with funds := creditSeller sC.funds c p } := hpc
  rcases mem_dset hpc' with h1 | h2
  · have hpf' : pf ∈ creditSeller sC.funds c p := by
      rw [h1] at hpf
      exact hpf
    exact creditSeller_nonneg sC.funds c p
      (fun x hx => hnn _ (dget_mem hs2) x hx) hp pf hpf'
  · rcases mem_dset h2 with h3 | h4
    · have hpf' : pf ∈ bF := by
        rw [h3] at hpf
        exact hpf
      rw [hbF] at hpf'
      refine dset_nonneg bC.funds c (bal - p)
        (fun x hx => hnn _ (dget_mem hb) x hx) (by linarith) pf hpf'
    · exact hnn _ h4 pf hpf

/-- Witness for the amended C3: the concrete trade behind `okState1`
keeps every balance non-negative. -/
theorem C3_nonneg_preserved_witness : balancesNonneg okState1 :=
  C3_nonneg_preserved initGame "09:00:00" "미국 🇺🇸" "한국 🇰🇷" "밀 🌾" 1 1000 "KRW"
    okState1 ⟨["쌀 🍚", "전자제품 📱"], [("KRW", 50000)]⟩ 50000
    (by decide) (by decide) (by decide) (by decide) (by decide) settle_okState1

/-- Claim C4 (confirmed): with the same-participant check passed and all
conversions defined, the settle fails with the insufficient-funds error
exactly when the buyer's total KRW-converted wealth (summed over every
currency the buyer holds) is strictly below the KRW-converted price; and
in that case the handler leaves the session state unchanged. -/
theorem C4_insufficient_iff (s : GameState) (t sl byr it : String) (q : ℤ)
    (p : ℚ) (c : String) (bC sC : Country) (total pK : ℚ)
    (hne : sl ≠ byr)
    (hb : dget s.countries byr = some bC)
    (hs : dget s.countries sl = some sC)
    (htot : totalKrw bC.funds s.rates = some total)
    (hpk : convert_currency p c "KRW" s.rates = some pK) :
    (settle s t sl byr it q p c = .error .insufficientFunds ↔ total < pK) ∧
    (total < pK → submitTrade s ⟨t, sl, byr, it, q, p, c⟩ = s) := by
  have hiff : settle s t sl byr it q p c = .error .insufficientFunds ↔
      total < pK := by
    simp only [settle, if_neg hne, hb, hs, htot, hpk]
    by_cases hlt : total < pK
    · simp [hlt]
    · simp only [if_neg hlt]
      constructor
      · intro hcontra
        cases hd : debitBuyer bC.funds p pK c s.rates with
        | ok bF =>
            rw [hd] at hcontra
            exact absurd hcontra (by simp)
        | error e =>
            rw [hd] at hcontra
            have he : e = .insufficientFunds := by
              simpa using hcontra
            rcases debitBuyer_error_kinds _ _ _ _ _ _ hd with h1 | h1 <;>
              simp [h1] at he
      · intro hcontra
        exact absurd hcontra hlt
  refine ⟨hiff, fun hlt => ?_⟩
  simp [submitTrade, hiff.mpr hlt]

/-- Witness for C4: 한국 tries to buy cocoa from 미국 for 1000 USD with
total wealth 50000 KRW < 1400000 KRW — insufficient funds. -/
theorem C4_insufficient_iff_witness :
    settle initGame "10:00:00" "한국 🇰🇷" "미국 🇺🇸" "카카오 🍫" 1 1000 "USD" =
      .error .insufficientFunds :=
  ((C4_insufficient_iff initGame "10:00:00" "한국 🇰🇷" "미국 🇺🇸" "카카오 🍫" 1
      1000 "USD" ⟨["밀 🌾", "카카오 🍫"], [("USD", 30)]⟩
      ⟨["쌀 🍚", "전자제품 📱"], [("KRW", 50000)]⟩ 42000 1400000
      (by decide) (by decide) (by decide)
      (by norm_num +decide [totalKrw, convert_currency, dget, initGame,
        initialize_game, base_rates, Option.getD])
      (by norm_num +decide [convert_currency, dget, initGame,
        initialize_game, base_rates, Option.getD])).1).mpr
    (by norm_num)

/-- Claim C5 (confirmed): a successful settle appends exactly one record,
with the submitted fields, at the end of the ledger; appends exactly one
descriptor built from the item and quantity to the buyer's resource list;
and increases the seller's balance in the trade currency by exactly the
price, creating the key at the price if the seller did not hold it. -/
theorem C5_success_effects (s : GameState) (t sl byr it : String) (q : ℤ)
    (p : ℚ) (c : String) (s' : GameState) (bC sC : Country)
    (hb : dget s.countries byr = some bC)
    (hs : dget s.countries sl = some sC)
    (h : settle s t sl byr it q p c = .ok s') :
    s'.transactions = s.transactions ++ [mkRecord t sl byr it q p c] ∧
    (dget s'.countries byr).map Country.resources =
      some (bC.resources ++ [newItemStr it q]) ∧
    (dget s'.countries sl).bind (fun cc => dget cc.funds c) =
      some ((dget sC.funds c).getD 0 + p) := by
  obtain ⟨hne, bC', sC', total, pK, bF, hb', hs2, htot, hpk, hlt, hd, hs'⟩ :=
    settle_ok_parts s t sl byr it q p c s' h
  rw [hb] at hb'
  injection hb' with e1
  subst e1
  rw [hs] at hs2
  injection hs2 with e2
  subst e2
  subst hs'
  refine ⟨rfl, ?_, ?_⟩
  · dsimp only
    rw [dget_dset_ne _ _ _ _ hne, dget_dset_self]
    rfl
  · dsimp only
    rw [dget_dset_self]
    show dget (creditSeller sC.funds c p) c = _
    rw [creditSeller_dget]

/-- Witness for C5 at the concrete trade behind `okState1`. -/
theorem C5_success_effects_witness :
    okState1.transactions =
      initGame.transactions ++
        [mkRecord "09:00:00" "미국 🇺🇸" "한국 🇰🇷" "밀 🌾" 1 1000 "KRW"] ∧
    (dget okState1.countries "한국 🇰🇷").map Country.resources =
      some (["쌀 🍚", "전자제품 📱"] ++ [newItemStr "밀 🌾" 1]) ∧
    (dget okState1.countries "미국 🇺🇸").bind (fun cc => dget cc.funds "KRW") =
      some ((dget [("USD", (30 : ℚ))] "KRW").getD 0 + 1000) :=
  C5_success_effects initGame "09:00:00" "미국 🇺🇸" "한국 🇰🇷" "밀 🌾" 1 1000 "KRW"
    okState1 ⟨["쌀 🍚", "전자제품 📱"], [("KRW", 50000)]⟩
    ⟨["밀 🌾", "카카오 🍫"], [("USD", 30)]⟩
    (by decide) (by decide) settle_okState1

/-- Claim C9 (confirmed): over any session, the ledger only ever grows by
appending at the end (the initial ledger is an untouched front segment of
the final one), its row count equals the initial count plus the number of
successful settlements, no failed settlement adds a row, and the export
column order is fixed as time, seller, buyer, item, quantity, price,
currency. -/
theorem C9_ledger_append_only :
    (∀ (reqs : List TradeReq) (s : GameState),
        (processAll s reqs).transactions.length =
          s.transactions.length + successCount s reqs ∧
        ∃ tail, (processAll s reqs).transactions = s.transactions ++ tail) ∧
    transactionColumns =
      ["시간", "파는 나라", "사는 나라", "거래 물품", "수량", "거래 금액", "통화"] := by
  constructor
  · intro reqs
    induction reqs with
    | nil =>
        intro s
        exact ⟨by simp [processAll, successCount], [], by simp [processAll]⟩
    | cons r rs ih =>
        intro s
        have hfold : processAll s (r :: rs) = processAll (submitTrade s r) rs := rfl
        cases hset : settle s r.time r.seller r.buyer r.item r.quantity
            r.price r.currency with
        | ok s2 =>
            have hsub : submitTrade s r = s2 := by
              simp [submitTrade, hset]
            have htr := settle_ok_transactions s r.time r.seller r.buyer r.item
              r.quantity r.price r.currency s2 hset
            obtain ⟨ihlen, tail, ihtail⟩ := ih (submitTrade s r)
            constructor
            · rw [hfold, ihlen, hsub, htr]
              simp only [successCount, hset, List.length_append,
                List.length_singleton]
              omega
            · exact ⟨[mkRecord r.time r.seller r.buyer r.item r.quantity
                  r.price r.currency] ++ tail,
                by rw [hfold, ihtail, hsub, htr, List.append_assoc]⟩
        | error e =>
            have hsub : submitTrade s r = s := by
              simp [submitTrade, hset]
            obtain ⟨ihlen, tail, ihtail⟩ := ih (submitTrade s r)
            constructor
            · rw [hfold, ihlen, hsub]
              simp [successCount, hset]
            · exact ⟨tail, by rw [hfold, ihtail, hsub]⟩
  · rfl

/-- Claim C10 (confirmed): a successful settle leaves the live rates, the
original-rates snapshot and the news flag unchanged, leaves every
participant other than the buyer and the seller untouched, and leaves the
seller's resource list unchanged. -/
theorem C10_frame (s : GameState) (t sl byr it : String) (q : ℤ) (p : ℚ)
    (c : String) (s' : GameState)
    (h : settle s t sl byr it q p c = .ok s') :
    s'.rates = s.rates ∧ s'.originalRates = s.originalRates ∧
    s'.newsActive = s.newsActive ∧
    (∀ n, n ≠ byr → n ≠ sl → dget s'.countries n = dget s.countries n) ∧
    (dget s'.countries sl).map Country.resources =
      (dget s.countries sl).map Country.resources := by
  obtain ⟨hne, bC, sC, total, pK, bF, hb, hs2, htot, hpk, hlt, hd, hs'⟩ :=
    settle_ok_parts s t sl byr it q p c s' h
  subst hs'
  refine ⟨rfl, rfl, rfl, ?_, ?_⟩
  · intro n hn1 hn2
    dsimp only
    rw [dget_dset_ne _ _ _ _ (Ne.symm hn2), dget_dset_ne _ _ _ _ (Ne.symm hn1)]
  · dsimp only
    rw [dget_dset_self, hs2]
    rfl

/-- Witness for C10 at the concrete trade behind `okState1`. -/
theorem C10_frame_witness :
    okState1.rates = initGame.rates ∧
    okState1.originalRates = initGame.originalRates ∧
    okState1.newsActive = initGame.newsActive ∧
    (∀ n, n ≠ "한국 🇰🇷" → n ≠ "미국 🇺🇸" →
        dget okState1.countries n = dget initGame.countries n) ∧
    (dget okState1.countries "미국 🇺🇸").map Country.resources =
      (dget initGame.countries "미국 🇺🇸").map Country.resources :=
  C10_frame initGame "09:00:00" "미국 🇺🇸" "한국 🇰🇷" "밀 🌾" 1 1000 "KRW"
    okState1 settle_okState1
